import Mathlib

set_option maxRecDepth 4096

/-!
Shallow embedding of the goodnews.news news-curation and scheduling pipeline.

The embedded code lives in two near-identical entry points:
  * `backend/server.js` — Express server: `fetchGoodNews`, `sendDailyDigest`,
    `getSubscribersForCurrentHour`, the signup handler and the 15-minute cron loop;
  * `api/cron/daily-digest.js` — standalone cron job with its own copy of
    `fetchGoodNews` and an inline per-subscriber loop in `handler`.

External I/O (the NewsAPI provider, the timezone projection of `Date`, the
Supabase store, the Resend sender) is abstracted as oracles passed in as
function arguments; everything the JavaScript computes on the fetched data is
translated directly.
-/

namespace GoodNews

/-- ASCII lowercasing of a string, character by character.
Models JS `String.prototype.toLowerCase()` on the ASCII range (all keyword
matching in the program is over ASCII keywords). -/
def lowerStr (s : String) : String := ⟨s.data.map Char.toLower⟩

/-- Models JS `String.prototype.includes(needle)`: plain substring containment
(no word boundaries). -/
def includes (hay needle : String) : Bool := decide (needle.data <:+: hay.data)

/-- `positiveKeywords` from `fetchGoodNews` (identical in both entry points). -/
def positiveKeywords : List String :=
  ["breakthrough", "success", "achieve", "discover", "innovate",
   "cure", "saves", "helped", "donate", "volunteer", "milestone",
   "renewable", "sustainable", "recovery", "celebrates", "award",
   "research finds", "scientists discover", "new study", "progress"]

/-- `excludeKeywords` from `fetchGoodNews` (identical in both entry points). -/
def excludeKeywords : List String :=
  ["casino", "gambling", "bet", "poker", "slots", "free spins",
   "death", "dead", "kill", "murder", "crash", "disaster", "tragedy",
   "war", "attack", "terror", "bomb", "shooting", "violence",
   "scandal", "fraud", "scam", "accused", "arrest", "prison",
   "crypto", "bitcoin", "nft", "forex", "trading signals",
   "weight loss", "diet pill", "supplement", "cbd", "thc",
   "click here", "limited time", "act now", "buy now", "discount",
   "sponsored", "advertisement", "promoted", "partner content",
   "globenewswire", "prnewswire", "businesswire", "accesswire"]

/-- `trustedSources` from `fetchGoodNews` in `backend/server.js`. -/
def trustedSources : List String :=
  ["bbc", "npr", "reuters", "associated press", "the guardian",
   "new york times", "washington post", "wired", "ars technica",
   "the verge", "techcrunch", "nature", "science", "national geographic",
   "smithsonian", "cnn", "abc news", "cbs news", "nbc news", "time",
   "forbes", "bloomberg", "espn", "sports illustrated"]

/-- A raw article candidate as returned by the provider.  `title`,
`description`, `source.name` and `urlToImage` may be absent in the JSON;
`none` models an absent (or `null`) field and `some ""` an empty string —
both are falsy in the JS truthiness checks. -/
structure Article where
  title : Option String
  description : Option String
  url : String
  sourceName : Option String
  urlToImage : Option String
deriving DecidableEq

/-- The lowercased template string joining title and description with a
single space. -/
def textOf (t d : String) : String := lowerStr (t ++ " " ++ d)

/-- The lowercased source name, `article.source?.name` with an absent name
read as the empty string. -/
def sourceOf (a : Article) : String := lowerStr (a.sourceName.getD (""))

/-- `positiveKeywords.some(kw => text.includes(kw))`. -/
def hasPositive (text : String) : Bool :=
  positiveKeywords.any (fun kw => includes text kw)

/-- `excludeKeywords.some(kw => text.includes(kw) || source.includes(kw))`. -/
def hasExcluded (text source : String) : Bool :=
  excludeKeywords.any (fun kw => includes text kw || includes source kw)

/-- `trustedSources.some(s => source.includes(s))` on a lowercased source. -/
def isTrustedSource (source : String) : Bool :=
  trustedSources.any (fun s => includes source s)

/-- Whether an article comes from a trusted source, as computed by the sort
comparator in `backend/server.js`: `trustedSources.some` of `aSource.includes`
over the lowercased optional source name. -/
def isTrustedArticle (a : Article) : Bool := isTrustedSource (sourceOf a)

/-- The article filter predicate from `fetchGoodNews` (identical in both entry
points): drop candidates with a falsy title or description, then require a
positive keyword in the lowercased title+description and no exclusion keyword
in that text or in the lowercased source name.  (The `isTrusted` flag computed
inside the JS filter is unused in its return value.) -/
def passesFilter (a : Article) : Bool :=
  match a.title, a.description with
  | some t, some d =>
    if t = "" || d = "" then false
    else hasPositive (textOf t d) && !hasExcluded (textOf t d) (sourceOf a)
  | _, _ => false

/-- Models `goodArticles.sort((a, b) => bTrusted - aTrusted)` in
`backend/server.js`.  ECMAScript `Array.prototype.sort` is stable, and the
comparator orders by the boolean key `trusted source`; the unique
stable reordering for a two-valued key is the trusted block (in input order)
followed by the untrusted block (in input order). -/
def sortTrustedFirst (l : List Article) : List Article :=
  l.filter (fun a => isTrustedArticle a) ++ l.filter (fun a => !isTrustedArticle a)

/-- A digest item as pushed onto `newsItems`: the article fields plus the
interest tag as `category`.  The `daily-digest.js` copy omits `image`. -/
structure DigestItem where
  title : String
  description : String
  url : String
  source : String
  image : Option String
  category : String
deriving DecidableEq

/-- The per-article item construction in `backend/server.js`
(`source: article.source.name`, without optional chaining): `none` models the
TypeError thrown when the article has no source object. -/
def mkItemServer (interest : String) (a : Article) : Option DigestItem :=
  a.sourceName.map (fun s =>
    ⟨a.title.getD (""), a.description.getD (""), a.url, s, a.urlToImage, interest⟩)

/-- The per-article item construction in `daily-digest.js` (no `image` field;
`source: article.source.name` likewise throws when the source is absent). -/
def mkItemCron (interest : String) (a : Article) : Option DigestItem :=
  a.sourceName.map (fun s =>
    ⟨a.title.getD (""), a.description.getD (""), a.url, s, none, interest⟩)

/-- JS `Array.prototype.map` with a callback that can throw: `none` when the
callback throws on some element, otherwise the mapped list. -/
def mapOrThrow (f : α → Option β) : List α → Option (List β)
  | [] => some []
  | a :: as =>
    match f a, mapOrThrow f as with
    | some b, some bs => some (b :: bs)
    | _, _ => none

/-- What one loop iteration of `fetchGoodNews` in `backend/server.js`
contributes to `newsItems`, given the parsed `data.articles` list: filter,
stable-sort trusted sources first, take the first 2, build items.  A TypeError
from `article.source.name` is caught by the surrounding `try` so the tag
contributes nothing. -/
def processTagServer (interest : String) (articles : List Article) : List DigestItem :=
  match mapOrThrow (mkItemServer interest)
      ((sortTrustedFirst (articles.filter passesFilter)).take 2) with
  | some items => items
  | none => []

/-- What one loop iteration of `fetchGoodNews` in `daily-digest.js`
contributes: filter, take the first 2 (no sort in this copy), build items. -/
def processTagCron (interest : String) (articles : List Article) : List DigestItem :=
  match mapOrThrow (mkItemCron interest) ((articles.filter passesFilter).take 2) with
  | some items => items
  | none => []

/-- Outcome of the provider call for one interest tag: the `fetch` or
`response.json()` threw, or the parsed body has no `articles` field, or it has
an `articles` list. -/
inductive FetchOutcome where
  | fail
  | noArticles
  | ok (articles : List Article)

/-- The whole loop body of `fetchGoodNews` in `backend/server.js` for one
interest: a thrown error is caught and logged (contributing nothing), a
response without `data.articles` contributes nothing, otherwise the articles
are processed. -/
def tagResultServer (f : String → FetchOutcome) (interest : String) : List DigestItem :=
  match f interest with
  | .fail => []
  | .noArticles => []
  | .ok articles => processTagServer interest articles

/-- The loop body of `fetchGoodNews` in `daily-digest.js` for one interest. -/
def tagResultCron (f : String → FetchOutcome) (interest : String) : List DigestItem :=
  match f interest with
  | .fail => []
  | .noArticles => []
  | .ok articles => processTagCron interest articles

/-- `fetchGoodNews(interests)` in `backend/server.js`: iterate over
`interests.slice(0, 3)` and concatenate the contribution of each tag. -/
def fetchGoodNewsServer (f : String → FetchOutcome) (interests : List String) :
    List DigestItem :=
  ((interests.take 3).map (tagResultServer f)).flatten

/-- `fetchGoodNews(interests)` in `daily-digest.js`. -/
def fetchGoodNewsCron (f : String → FetchOutcome) (interests : List String) :
    List DigestItem :=
  ((interests.take 3).map (tagResultCron f)).flatten

/-! ### Scheduler -/

/-- The projected local wall-clock time of a subscriber, as read off the
`Date` built from `now.toLocaleString` in the stored timezone, via `getHours`
and `getMinutes`. -/
structure LocalTime where
  hour : Nat
  minute : Nat
deriving DecidableEq

/-- A subscriber row, as stored in the `subscribers` table. -/
structure Subscriber where
  email : String
  interests : List String
  timezone : String
deriving DecidableEq

/-- A timezone projection oracle: given the stored IANA timezone string,
either the local wall-clock time of the current instant in that zone, or `none` when
`toLocaleString` throws (invalid/unsupported timezone string). -/
def Clock := String → Option LocalTime

/-- The delivery-window test, written identically in both entry points:
`hours === 7 && minutes >= 30 && minutes < 45`. -/
def isDueTime (t : LocalTime) : Bool :=
  t.hour == 7 && t.minute >= 30 && t.minute < 45

/-- The per-subscriber predicate inside the `subscribers.filter` of
`getSubscribersForCurrentHour` in `backend/server.js`: the window test on the
projected local time, with the try/catch around the projection returning
false on a throw. -/
def isDue (clock : Clock) (tz : String) : Bool :=
  match clock tz with
  | some t => isDueTime t
  | none => false

/-- `getSubscribersForCurrentHour` in `backend/server.js`, given the list the
store read returned (a store error yields `[]` upstream). -/
def getSubscribersForCurrentHour (clock : Clock) (subs : List Subscriber) :
    List Subscriber :=
  subs.filter (fun s => isDue clock s.timezone)

/-- An email handed to the Resend sender: recipient and the digest items
rendered into its body. -/
structure SendEvent where
  recipient : String
  items : List DigestItem
deriving DecidableEq

/-- `sendDailyDigest(subscriber)` in `backend/server.js`, as the list of send
calls it issues: fetch the digest over the interests of the subscriber; if it is
empty, log and return without sending; otherwise send one email. -/
def sendDailyDigest (f : String → FetchOutcome) (s : Subscriber) : List SendEvent :=
  let news := fetchGoodNewsServer f s.interests
  if news.length = 0 then [] else [⟨s.email, news⟩]

/-- The body of the 15-minute cron callback in `backend/server.js`: filter the
due subscribers, then run `sendDailyDigest` on each in order. -/
def digestCycleServer (clock : Clock) (f : String → FetchOutcome)
    (subs : List Subscriber) : List SendEvent :=
  ((getSubscribersForCurrentHour clock subs).map (sendDailyDigest f)).flatten

/-- One iteration of the subscriber loop in `handler` of `daily-digest.js`:
project local time (a throw is caught by the per-subscriber `try`, skipping
the subscriber), check the 7:30–7:45 window, fetch the digest, and send only
when it is non-empty. -/
def cronProcessSubscriber (clock : Clock) (f : String → FetchOutcome)
    (s : Subscriber) : List SendEvent :=
  match clock s.timezone with
  | none => []
  | some t =>
    if isDueTime t then
      let news := fetchGoodNewsCron f s.interests
      if news.length > 0 then [⟨s.email, news⟩] else []
    else []

/-- The subscriber loop of `handler` in `daily-digest.js`, as the list of send
calls issued over the whole batch. -/
def cronHandlerSends (clock : Clock) (f : String → FetchOutcome)
    (subs : List Subscriber) : List SendEvent :=
  (subs.map (cronProcessSubscriber clock f)).flatten

/-! ### Signup -/

/-- `email.slice(0, n)` / `String.prototype.slice` with a nonnegative bound:
the first `n` characters. -/
def strTake (s : String) (n : Nat) : String := ⟨s.data.take n⟩

/-- `isValidEmail` from `backend/server.js` (the same definition appears in
the standalone signup handler): the regex `^[^\s@]+@[^\s@]+\.[^\s@]+$`
together with `email.length <= 254`.  The regex matches exactly the strings of
the form `A@B.C` with `A`, `B`, `C` non-empty and free of whitespace and `@`
(`B` and `C` may contain further dots), i.e. strings with exactly one `@`,
no whitespace, a non-empty local part, and a dot strictly inside the part
after the `@`. -/
def isValidEmail (email : String) : Bool :=
  let cs := email.data
  let lp := cs.takeWhile (fun c => c != '@')
  match cs.dropWhile (fun c => c != '@') with
  | '@' :: domain =>
    decide (cs.length ≤ 254) && !lp.isEmpty &&
    lp.all (fun c => !c.isWhitespace) &&
    domain.all (fun c => !c.isWhitespace && c != '@') &&
    (List.range domain.length).any (fun j =>
      decide (0 < j) && decide (j + 1 < domain.length) && domain.getD j ' ' == '.')
  | _ => false

/-- The character class the sanitizer keeps (the replace regex deletes every
other character): lowercase ASCII letters, digits, whitespace and hyphen. -/
def allowedChar (c : Char) : Bool :=
  (decide ('a' ≤ c) && decide (c ≤ 'z')) ||
  (decide ('0' ≤ c) && decide (c ≤ '9')) || c.isWhitespace || c == '-'

/-- One element of the map inside `sanitizeInterests`: coerce to string,
lowercase, delete disallowed characters, keep the first 50 characters
(elements are modelled after the `String` coercion). -/
def sanitizeOne (s : String) : String :=
  strTake ⟨(lowerStr s).data.filter allowedChar⟩ 50

/-- `sanitizeInterests` from both signup handlers: `none` models a request
whose `interests` is not an array (`Array.isArray` fails → `[]`); otherwise
keep at most 10 entries, sanitize each, and drop the ones that became empty. -/
def sanitizeInterests : Option (List String) → List String
  | none => []
  | some l => ((l.take 10).map sanitizeOne).filter (fun i => i.length > 0)

/-- The timezone defaulting step of the handler: an absent (or empty, hence
falsy) timezone falls back to the default `America/New_York`. -/
def timezoneOrDefault : Option String → String
  | none => "America/New_York"
  | some t => if t = "" then ("America/New_York") else t

/-- A write issued to the Supabase `subscribers` table.  `update` records the
fields of the update payload; `setsUpdatedAt` is `true` because the payload
includes `updated_at: new Date().toISOString()`. -/
inductive StoreAction where
  | insert (email : String) (interests : List String) (timezone : String)
  | update (email : String) (interests : List String) (timezone : String)
      (setsUpdatedAt : Bool)
deriving DecidableEq

/-- The observable outcome of one signup request: HTTP status, the `error` or
`message` text, the store writes issued, and the welcome-email recipient if
one is sent (only on the insert path). -/
structure SignupOutcome where
  status : Nat
  message : String
  actions : List StoreAction
  welcomeEmailTo : Option String
deriving DecidableEq

/-- The `POST /api/signup` handler of `backend/server.js` (the standalone
handler in the unnamed serverless signup file is line-for-line the same on
this path, with `res.status(200).json` for `res.json`).  The store is
abstracted by the list of emails for which the select-by-email lookup
finds a row — a case-sensitive exact-match lookup; store writes are assumed
not to error (the `throw`/500 path is not modelled). -/
def signupHandler (existingEmails : List String) (email : Option String)
    (interests : Option (List String)) (timezone : Option String) : SignupOutcome :=
  match email with
  | none => ⟨400, "Valid email required", [], none⟩
  | some e =>
    if e = "" || !isValidEmail e then ⟨400, "Valid email required", [], none⟩
    else
      let cleanInterests := sanitizeInterests interests
      if cleanInterests.isEmpty then ⟨400, "At least one interest required", [], none⟩
      else
        let cleanTimezone := strTake (timezoneOrDefault timezone) 50
        if existingEmails.contains e then
          ⟨200, "Preferences updated successfully!",
            [.update e cleanInterests cleanTimezone true], none⟩
        else
          ⟨200, "Successfully subscribed!",
            [.insert e cleanInterests cleanTimezone], some e⟩

/-! ### Concrete inputs used to exercise the model -/

/-- A candidate from a trusted source that passes both filters. -/
def demoTrusted : Article :=
  ⟨some ("Solar milestone"), some ("renewable power grows"), "u1", some ("Reuters"), none⟩

/-- A candidate from an untrusted source that passes both filters. -/
def demoUntrusted : Article :=
  ⟨some ("Community celebrates garden"), some ("volunteer crews at work"), "u2",
    some ("Happy Blog"), none⟩

/-- A candidate whose text carries positive keywords but also the word
`better`, which contains the exclusion keyword `bet` as a substring. -/
def demoBetter : Article :=
  ⟨some ("A better way to achieve more"), some ("progress for all"), "u3",
    some ("Daily Blog"), none⟩

/-- A demo subscriber. -/
def demoSubscriber : Subscriber := ⟨"a@b.co", ["tech"], "America/New_York"⟩

/-! ### Helper lemmas -/

theorem mapOrThrow_length {α β : Type} (f : α → Option β) :
    ∀ (l : List α) (ys : List β), mapOrThrow f l = some ys → ys.length = l.length := by
  intro l
  induction l with
  | nil =>
    intro ys h
    simp only [mapOrThrow, Option.some.injEq] at h
    simp [← h]
  | cons a as ih =>
    intro ys h
    simp only [mapOrThrow] at h
    cases hf : f a <;> rw [hf] at h
    · simp at h
    · cases hm : mapOrThrow f as <;> rw [hm] at h
      · simp at h
      · simp only [Option.some.injEq] at h
        rw [← h]
        simp [ih _ hm]

theorem mapOrThrow_mem {α β : Type} (f : α → Option β) :
    ∀ (l : List α) (ys : List β), mapOrThrow f l = some ys →
      ∀ b ∈ ys, ∃ a ∈ l, f a = some b := by
  intro l
  induction l with
  | nil =>
    intro ys h b hb
    simp only [mapOrThrow, Option.some.injEq] at h
    rw [← h] at hb
    simp at hb
  | cons a as ih =>
    intro ys h b hb
    simp only [mapOrThrow] at h
    cases hf : f a <;> rw [hf] at h
    · simp at h
    · cases hm : mapOrThrow f as <;> rw [hm] at h
      · simp at h
      · simp only [Option.some.injEq] at h
        rw [← h] at hb
        rcases List.mem_cons.1 hb with hb | hb
        · exact ⟨a, List.mem_cons_self _ _, by rw [hf, hb]⟩
        · obtain ⟨x, hx, hfx⟩ := ih _ hm b hb
          exact ⟨x, List.mem_cons_of_mem _ hx, hfx⟩

theorem category_mkItemServer {interest : String} {a : Article} {item : DigestItem}
    (h : mkItemServer interest a = some item) : item.category = interest := by
  unfold mkItemServer at h
  cases hs : a.sourceName <;> rw [hs] at h
  · simp at h
  · simp only [Option.map_some', Option.some.injEq] at h
    rw [← h]

theorem category_mkItemCron {interest : String} {a : Article} {item : DigestItem}
    (h : mkItemCron interest a = some item) : item.category = interest := by
  unfold mkItemCron at h
  cases hs : a.sourceName <;> rw [hs] at h
  · simp at h
  · simp only [Option.map_some', Option.some.injEq] at h
    rw [← h]

/-! ### Claim theorems -/

/-- C2: a candidate whose lowercased title+description contains a positive
keyword but also contains an exclusion keyword in that text or in the
lowercased source name is rejected by the article filter (the filter is the
same in both entry points), hence never among the filtered articles of any
candidate list: exclusion takes precedence over positivity. -/
theorem exclusion_dominates (a : Article) (t d : String)
    (ht : a.title = some t) (hd : a.description = some d)
    (_hpos : hasPositive (textOf t d) = true)
    (hexc : hasExcluded (textOf t d) (sourceOf a) = true) :
    passesFilter a = false ∧ ∀ l : List Article, a ∉ l.filter passesFilter := by
  have hp : passesFilter a = false := by
    simp only [passesFilter, ht, hd]
    split
    · rfl
    · rw [hexc]
      simp
  refine ⟨hp, fun l hmem => ?_⟩
  rw [List.mem_filter, hp] at hmem
  exact absurd hmem.2 (by simp)

theorem exclusion_dominates_witness :
    passesFilter demoBetter = false :=
  (exclusion_dominates demoBetter ("A better way to achieve more")
    ("progress for all") rfl rfl (by decide) (by decide)).1

/-- C6: a candidate whose title or description field is absent (or the empty
string, both falsy in JS) is dropped by the article filter unconditionally,
regardless of its remaining content, and therefore never appears among the
filtered articles of any candidate list. -/
theorem missing_fields_dropped (a : Article)
    (h : a.title = none ∨ a.title = some ("") ∨
      a.description = none ∨ a.description = some ("")) :
    passesFilter a = false ∧ ∀ l : List Article, a ∉ l.filter passesFilter := by
  have hp : passesFilter a = false := by
    rcases h with h | h | h | h
    · cases hd : a.description <;> simp [passesFilter, h, hd]
    · cases hd : a.description <;> simp [passesFilter, h, hd]
    · cases ht : a.title <;> simp [passesFilter, ht, h]
    · cases ht : a.title <;> simp [passesFilter, ht, h]
  refine ⟨hp, fun l hmem => ?_⟩
  rw [List.mem_filter, hp] at hmem
  exact absurd hmem.2 (by simp)

theorem missing_fields_witness :
    passesFilter ⟨none, some ("achieve a success"), "u4", some ("BBC"), none⟩ = false :=
  (missing_fields_dropped ⟨none, some ("achieve a success"), "u4", some ("BBC"), none⟩
    (Or.inl rfl)).1

/-- C5: for every interest tag and candidate list, each classifier emits at
most 2 digest items, and every emitted item carries the interest tag as its
`category` field — in both entry points. -/
theorem output_cap_and_category (interest : String) (articles : List Article) :
    (processTagServer interest articles).length ≤ 2 ∧
    (processTagCron interest articles).length ≤ 2 ∧
    (∀ item ∈ processTagServer interest articles, item.category = interest) ∧
    (∀ item ∈ processTagCron interest articles, item.category = interest) := by
  refine ⟨?_, ?_, ?_, ?_⟩
  · unfold processTagServer
    cases hm : mapOrThrow (mkItemServer interest)
        ((sortTrustedFirst (articles.filter passesFilter)).take 2) with
    | none => simp
    | some ys =>
      simp only []
      rw [mapOrThrow_length _ _ _ hm]
      exact List.length_take_le _ _
  · unfold processTagCron
    cases hm : mapOrThrow (mkItemCron interest)
        ((articles.filter passesFilter).take 2) with
    | none => simp
    | some ys =>
      simp only []
      rw [mapOrThrow_length _ _ _ hm]
      exact List.length_take_le _ _
  · intro item hitem
    unfold processTagServer at hitem
    cases hm : mapOrThrow (mkItemServer interest)
        ((sortTrustedFirst (articles.filter passesFilter)).take 2) with
    | none => rw [hm] at hitem; simp at hitem
    | some ys =>
      rw [hm] at hitem
      simp only [] at hitem
      obtain ⟨a, _, hfa⟩ := mapOrThrow_mem _ _ _ hm item hitem
      exact category_mkItemServer hfa
  · intro item hitem
    unfold processTagCron at hitem
    cases hm : mapOrThrow (mkItemCron interest)
        ((articles.filter passesFilter).take 2) with
    | none => rw [hm] at hitem; simp at hitem
    | some ys =>
      rw [hm] at hitem
      simp only [] at hitem
      obtain ⟨a, _, hfa⟩ := mapOrThrow_mem _ _ _ hm item hitem
      exact category_mkItemCron hfa

theorem output_cap_witness :
    (processTagServer ("news") [demoUntrusted, demoTrusted]).length ≤ 2 ∧
    (processTagCron ("news") [demoUntrusted, demoTrusted]).length ≤ 2 ∧
    (⟨"Solar milestone", "renewable power grows", "u1", "Reuters",
      none, "news"⟩ : DigestItem).category = "news" :=
  ⟨(output_cap_and_category ("news") [demoUntrusted, demoTrusted]).1,
   (output_cap_and_category ("news") [demoUntrusted, demoTrusted]).2.1,
   (output_cap_and_category ("news") [demoUntrusted, demoTrusted]).2.2.1 _ (by decide)⟩

/-- C10: keyword tests are plain substring containment on the lowercased
text, not word-boundary matches — `includes` holds exactly when the needle
occurs as a contiguous substring, `hasExcluded` holds exactly when some
exclusion keyword is such a substring of the text or the source, and
`isTrustedSource` holds exactly when some trusted-source name is such a
substring of the source.  Concretely, a candidate whose text contains the
positive keyword `achieve` but also the word `better` is rejected (the
exclusion keyword `bet` occurs inside `better`), and the source name
`Pseudoscience Daily` counts as trusted (it contains `science`). -/
theorem substring_matching :
    (∀ hay needle : String, includes hay needle = true ↔
      ∃ pre post : List Char, hay.data = pre ++ needle.data ++ post) ∧
    (∀ text source : String, hasExcluded text source = true ↔
      ∃ kw ∈ excludeKeywords, (includes text kw = true ∨ includes source kw = true)) ∧
    (∀ source : String, isTrustedSource source = true ↔
      ∃ s ∈ trustedSources, includes source s = true) ∧
    hasPositive (textOf ("A better way to achieve more") ("progress for all")) = true ∧
    passesFilter demoBetter = false ∧
    isTrustedSource (lowerStr ("Pseudoscience Daily")) = true := by
  refine ⟨?_, ?_, ?_, by decide, by decide, by decide⟩
  · intro hay needle
    unfold includes
    rw [decide_eq_true_iff]
    constructor
    · rintro ⟨s, t, hst⟩
      exact ⟨s, t, hst.symm⟩
    · rintro ⟨s, t, hst⟩
      exact ⟨s, t, hst.symm⟩
  · intro text source
    unfold hasExcluded
    rw [List.any_eq_true]
    simp only [Bool.or_eq_true]
  · intro source
    unfold isTrustedSource
    rw [List.any_eq_true]

/-- C1 counterexample: the claim quantifies over both entry points, but the
`fetchGoodNews` copy in `daily-digest.js` performs no trust sorting.  With a
candidate list holding an untrusted-source candidate before a trusted-source
candidate — both passing the positivity and exclusion filters — its output
keeps the untrusted item first. -/
theorem trusted_first_cex :
    passesFilter demoUntrusted = true ∧ passesFilter demoTrusted = true ∧
    isTrustedArticle demoTrusted = true ∧ isTrustedArticle demoUntrusted = false ∧
    (processTagCron ("news") [demoUntrusted, demoTrusted]).map (fun i => i.source) =
      ["Happy Blog", "Reuters"] := by
  decide

/-- C1 amended: in the `backend/server.js` entry point, the classifier places
all trusted-source candidates before all non-trusted ones and preserves the
input (fetch) order among candidates of equal trust status — the sorted list
is the trusted block followed by the untrusted block, each in input order, a
permutation of the filtered list, with no untrusted item ever before a
trusted one; the `daily-digest.js` entry point performs no trust sorting and
its output simply preserves the input order of the filtered candidates. -/
theorem trusted_first_amended (interest : String) (l : List Article) :
    List.Pairwise (fun a b => isTrustedArticle b = true → isTrustedArticle a = true)
      (sortTrustedFirst (l.filter passesFilter)) ∧
    (sortTrustedFirst (l.filter passesFilter)).filter (fun a => isTrustedArticle a) =
      (l.filter passesFilter).filter (fun a => isTrustedArticle a) ∧
    (sortTrustedFirst (l.filter passesFilter)).filter (fun a => !isTrustedArticle a) =
      (l.filter passesFilter).filter (fun a => !isTrustedArticle a) ∧
    (sortTrustedFirst (l.filter passesFilter)).Perm (l.filter passesFilter) ∧
    processTagServer interest l =
      (match mapOrThrow (mkItemServer interest)
          ((sortTrustedFirst (l.filter passesFilter)).take 2) with
       | some items => items
       | none => []) ∧
    processTagCron interest l =
      (match mapOrThrow (mkItemCron interest) ((l.filter passesFilter).take 2) with
       | some items => items
       | none => []) := by
  refine ⟨?_, ?_, ?_, ?_, rfl, rfl⟩
  · unfold sortTrustedFirst
    rw [List.pairwise_append]
    refine ⟨?_, ?_, ?_⟩
    · exact List.pairwise_of_forall_mem_list fun a ha b _ _ =>
        List.of_mem_filter ha
    · refine List.pairwise_of_forall_mem_list fun a _ b hb hb' => ?_
      have := List.of_mem_filter hb
      rw [hb'] at this
      simp at this
    · exact fun a ha b _ _ => List.of_mem_filter ha
  · unfold sortTrustedFirst
    rw [List.filter_append, List.filter_filter, List.filter_filter]
    simp
    intro a _ h1 h2
    rw [h1] at h2
    exact absurd h2 (by simp)
  · unfold sortTrustedFirst
    rw [List.filter_append, List.filter_filter, List.filter_filter]
    simp
  · exact List.filter_append_perm _ _

theorem trusted_first_amended_witness :
    (sortTrustedFirst ([demoUntrusted, demoTrusted].filter passesFilter)).filter
        (fun a => isTrustedArticle a) =
      ([demoUntrusted, demoTrusted].filter passesFilter).filter
        (fun a => isTrustedArticle a) :=
  (trusted_first_amended ("news") [demoUntrusted, demoTrusted]).2.1

/-- C3: whenever the timezone projection succeeds, a subscriber is classified
as due exactly when the projected local hour equals 7 and the local minute
lies in the interval from 30 inclusive to 45 exclusive; the window test
`isDueTime` is the one written in both entry points, and the `daily-digest.js`
loop issues nothing for a subscriber outside the window.  In particular 07:31
is due while 07:29 and 07:46 are not. -/
theorem due_window (clock : Clock) (tz : String) (t : LocalTime)
    (h : clock tz = some t) :
    isDue clock tz = isDueTime t ∧
    (isDueTime t = true ↔ (t.hour = 7 ∧ 30 ≤ t.minute ∧ t.minute < 45)) ∧
    (∀ (f : String → FetchOutcome) (s : Subscriber), s.timezone = tz →
      isDueTime t = false → cronProcessSubscriber clock f s = []) ∧
    isDueTime ⟨7, 31⟩ = true ∧ isDueTime ⟨7, 29⟩ = false ∧
    isDueTime ⟨7, 46⟩ = false := by
  refine ⟨?_, ?_, ?_, by decide, by decide, by decide⟩
  · unfold isDue
    rw [h]
  · unfold isDueTime
    simp [and_assoc]
  · intro f s hs hnd
    unfold cronProcessSubscriber
    rw [hs, h]
    simp [hnd]

theorem due_window_witness :
    isDue (fun _ => some ⟨7, 31⟩) "America/New_York" = isDueTime ⟨7, 31⟩ ∧
    isDueTime ⟨7, 31⟩ = true ∧
    cronProcessSubscriber (fun _ => some ⟨8, 0⟩) (fun _ => FetchOutcome.fail)
      demoSubscriber = [] :=
  ⟨(due_window (fun _ => some ⟨7, 31⟩) "America/New_York" ⟨7, 31⟩ rfl).1,
   (due_window (fun _ => some ⟨7, 31⟩) "America/New_York" ⟨7, 31⟩ rfl).2.1.2
     (by decide),
   (due_window (fun _ => some ⟨8, 0⟩) "America/New_York" ⟨8, 0⟩ rfl).2.2.1
     (fun _ => FetchOutcome.fail) demoSubscriber rfl (by decide)⟩

/-- C4: a subscriber whose stored timezone makes the projection throw is not
due this cycle and is skipped without aborting the batch, in both entry
points: the `backend/server.js` filter classifies the subscriber as not due,
and removing it from the middle of the batch leaves the processing of the
surrounding subscribers unchanged; the `daily-digest.js` loop issues no send
for the subscriber and the surrounding subscribers are processed as if it
were absent. -/
theorem invalid_timezone_isolated (clock : Clock) (f : String → FetchOutcome)
    (s : Subscriber) (pre post : List Subscriber)
    (h : clock s.timezone = none) :
    isDue clock s.timezone = false ∧
    getSubscribersForCurrentHour clock (pre ++ s :: post) =
      getSubscribersForCurrentHour clock pre ++
        getSubscribersForCurrentHour clock post ∧
    cronProcessSubscriber clock f s = [] ∧
    cronHandlerSends clock f (pre ++ s :: post) =
      cronHandlerSends clock f pre ++ cronHandlerSends clock f post := by
  have hdue : isDue clock s.timezone = false := by
    unfold isDue
    rw [h]
  have hcron : cronProcessSubscriber clock f s = [] := by
    unfold cronProcessSubscriber
    rw [h]
  refine ⟨hdue, ?_, hcron, ?_⟩
  · unfold getSubscribersForCurrentHour
    rw [List.filter_append, List.filter_cons, hdue]
    simp
  · unfold cronHandlerSends
    rw [List.map_append, List.map_cons, hcron]
    simp

theorem invalid_timezone_witness :
    isDue (fun _ => (none : Option LocalTime)) demoSubscriber.timezone = false ∧
    cronProcessSubscriber (fun _ => (none : Option LocalTime))
      (fun _ => FetchOutcome.fail) demoSubscriber = [] :=
  ⟨(invalid_timezone_isolated (fun _ => none) (fun _ => FetchOutcome.fail)
      demoSubscriber [] [] rfl).1,
   (invalid_timezone_isolated (fun _ => none) (fun _ => FetchOutcome.fail)
      demoSubscriber [] [] rfl).2.2.1⟩

/-- C7: if the provider call for one interest tag fails with an exception,
`fetchGoodNews` (in both entry points) contributes the empty list for that
tag and still returns the concatenation over the first 3 interests in which
every non-failing tag contributes its usual result — the failure neither
aborts the loop nor propagates (the function is total). -/
theorem fetch_failure_isolated (f : String → FetchOutcome)
    (interests : List String) (i : String) (h : f i = FetchOutcome.fail) :
    tagResultServer f i = [] ∧ tagResultCron f i = [] ∧
    fetchGoodNewsServer f interests =
      ((interests.take 3).map
        (fun j => if j = i then [] else tagResultServer f j)).flatten ∧
    fetchGoodNewsCron f interests =
      ((interests.take 3).map
        (fun j => if j = i then [] else tagResultCron f j)).flatten := by
  have hs : tagResultServer f i = [] := by
    unfold tagResultServer
    rw [h]
  have hc : tagResultCron f i = [] := by
    unfold tagResultCron
    rw [h]
  refine ⟨hs, hc, ?_, ?_⟩
  · unfold fetchGoodNewsServer
    congr 1
    refine List.map_congr_left fun j _ => ?_
    by_cases hj : j = i
    · rw [hj, hs, if_pos rfl]
    · rw [if_neg hj]
  · unfold fetchGoodNewsCron
    congr 1
    refine List.map_congr_left fun j _ => ?_
    by_cases hj : j = i
    · rw [hj, hc, if_pos rfl]
    · rw [if_neg hj]

theorem fetch_failure_witness :
    tagResultServer (fun _ => FetchOutcome.fail) "tech" = [] ∧
    fetchGoodNewsServer (fun _ => FetchOutcome.fail) ["tech", "science"] =
      (["tech", "science"].map
        (fun j => if j = "tech" then []
          else tagResultServer (fun _ => FetchOutcome.fail) j)).flatten :=
  ⟨(fetch_failure_isolated (fun _ => FetchOutcome.fail) ["tech", "science"]
      "tech" rfl).1,
   by
    have h := (fetch_failure_isolated (fun _ => FetchOutcome.fail)
      ["tech", "science"] "tech" rfl).2.2.1
    simpa using h⟩

/-- C8: a due subscriber whose concatenated digest over the first 3 interest
tags is empty triggers no send call, and the cycle continues with the other
subscribers in both entry points: `sendDailyDigest` returns without sending,
removing the subscriber from the middle of a batch leaves the send events of
the surrounding subscribers unchanged, and likewise for the `daily-digest.js`
loop. -/
theorem empty_digest_skips_send (clock : Clock) (f : String → FetchOutcome)
    (s : Subscriber) (pre post : List Subscriber) :
    (fetchGoodNewsServer f s.interests = [] →
      sendDailyDigest f s = [] ∧
      digestCycleServer clock f (pre ++ s :: post) =
        digestCycleServer clock f pre ++ digestCycleServer clock f post) ∧
    (fetchGoodNewsCron f s.interests = [] →
      cronProcessSubscriber clock f s = [] ∧
      cronHandlerSends clock f (pre ++ s :: post) =
        cronHandlerSends clock f pre ++ cronHandlerSends clock f post) := by
  constructor
  · intro hempty
    have hsend : sendDailyDigest f s = [] := by
      unfold sendDailyDigest
      rw [hempty]
      simp
    refine ⟨hsend, ?_⟩
    unfold digestCycleServer getSubscribersForCurrentHour
    rw [List.filter_append, List.filter_cons]
    cases hdue : isDue clock s.timezone <;> simp [hsend]
  · intro hempty
    have hsend : cronProcessSubscriber clock f s = [] := by
      unfold cronProcessSubscriber
      cases hc : clock s.timezone with
      | none => rfl
      | some t =>
        cases hd : isDueTime t <;> simp [hempty]
    refine ⟨hsend, ?_⟩
    unfold cronHandlerSends
    rw [List.map_append, List.map_cons, hsend]
    simp

theorem empty_digest_witness :
    sendDailyDigest (fun _ => FetchOutcome.fail) demoSubscriber = [] ∧
    cronProcessSubscriber (fun _ => some ⟨7, 31⟩) (fun _ => FetchOutcome.fail)
      demoSubscriber = [] :=
  ⟨((empty_digest_skips_send (fun _ => some ⟨7, 31⟩) (fun _ => FetchOutcome.fail)
      demoSubscriber [] []).1 (by decide)).1,
   ((empty_digest_skips_send (fun _ => some ⟨7, 31⟩) (fun _ => FetchOutcome.fail)
      demoSubscriber [] []).2 (by decide)).1⟩

/-- C9: a signup request with a valid email that already has a row in the
store (case-sensitive lookup) and a non-empty sanitized interest list issues
exactly one store write — an update of interests, timezone and the updated-at
timestamp on the existing row, never an insert — responds with status 200 and
the preferences-updated message rather than the new-subscription message, and
sends no welcome email. -/
theorem repeat_signup_updates (store : List String) (e : String)
    (interests : Option (List String)) (tz : Option String)
    (hv : isValidEmail e = true) (hi : sanitizeInterests interests ≠ [])
    (he : e ∈ store) :
    signupHandler store (some e) interests tz =
      ⟨200, "Preferences updated successfully!",
        [StoreAction.update e (sanitizeInterests interests)
          (strTake (timezoneOrDefault tz) 50) true], none⟩ ∧
    (∀ em i t, StoreAction.insert em i t ∉ (signupHandler store (some e) interests tz).actions) ∧
    (signupHandler store (some e) interests tz).message ≠ "Successfully subscribed!" := by
  have hne : ¬(e = "") := by
    intro h
    rw [h] at hv
    exact absurd hv (by decide)
  have hcond : (decide (e = "") || !isValidEmail e) = false := by
    rw [hv]
    simp [hne]
  have hmem : store.contains e = true := by simpa using he
  have hie : (sanitizeInterests interests).isEmpty = false := by
    cases hl : sanitizeInterests interests with
    | nil => exact absurd hl hi
    | cons a as => rfl
  have hmain : signupHandler store (some e) interests tz =
      ⟨200, "Preferences updated successfully!",
        [StoreAction.update e (sanitizeInterests interests)
          (strTake (timezoneOrDefault tz) 50) true], none⟩ := by
    simp [signupHandler, hcond, hie, hmem]
    exact he
  refine ⟨hmain, ?_, ?_⟩
  · intro em i t hmemins
    rw [hmain] at hmemins
    simp at hmemins
  · rw [hmain]
    simp

theorem repeat_signup_witness :
    signupHandler ["a@b.co"] (some ("a@b.co")) (some ["tech"]) none =
      ⟨200, "Preferences updated successfully!",
        [StoreAction.update ("a@b.co") ["tech"] ("America/New_York") true], none⟩ := by
  have h := (repeat_signup_updates ["a@b.co"] ("a@b.co") (some ["tech"]) none
    (by decide) (by decide) (by decide)).1
  rw [h]
  decide

end GoodNews
